import Mathlib

/-!
Verification of the pymitsubishi protocol codec.

Shallow embedding of `pymitsubishi/mitsubishi_parser.py` and the envelope
codec of `pymitsubishi/mitsubishi_api.py`.  Byte strings are modelled as
`List Nat` with every element below 256; Python's `bytes.hex()` slices are
translated to the byte indices they denote (two hex characters per byte).
Temperatures are held in 0.5 degree Celsius units as an `Int`, which renders
the Python `float` arithmetic of `MitsubishiTemperature` exactly: every
temperature the code constructs is a whole multiple of 0.5.
-/

namespace Pymitsubishi

/-- The `PowerOnOff` enum: values are the wire strings `'00'` and `'01'`,
modelled as the corresponding byte values. -/
inductive PowerOnOff
  | OFF
  | ON
deriving DecidableEq

/-- Wire byte of a `PowerOnOff` member (`'00'` / `'01'` in the source). -/
def PowerOnOff.value : PowerOnOff → Nat
  | .OFF => 0x00
  | .ON => 0x01

/-- The `PowerOnOff.from_segment`: `'01'` and `'02'` map to ON, all else OFF. -/
def PowerOnOff.from_segment (segment : Nat) : PowerOnOff :=
  if segment = 0x01 ∨ segment = 0x02 then .ON else .OFF

/-- The `DriveMode` enum with the numeric values of the source. -/
inductive DriveMode
  | AUTO
  | HEATER
  | DEHUM
  | COOLER
  | AUTO_COOLER
  | AUTO_HEATER
  | FAN
deriving DecidableEq

/-- Numeric value of a `DriveMode` member (`AUTO = 0`, ..., as in the source). -/
def DriveMode.value : DriveMode → Nat
  | .AUTO => 0
  | .HEATER => 1
  | .DEHUM => 2
  | .COOLER => 3
  | .AUTO_COOLER => 0x1b
  | .AUTO_HEATER => 0x19
  | .FAN => 7

/-- The `DriveMode.from_segment`: the `mode_map` dictionary lookup with default
`FAN`. -/
def DriveMode.from_segment (segment : Nat) : DriveMode :=
  if segment = 0x03 ∨ segment = 0x0b then .COOLER
  else if segment = 0x01 ∨ segment = 0x09 then .HEATER
  else if segment = 0x08 then .AUTO
  else if segment = 0x00 ∨ segment = 0x02 ∨ segment = 0x0a ∨ segment = 0x0c then .DEHUM
  else if segment = 0x1b then .AUTO_COOLER
  else if segment = 0x19 then .AUTO_HEATER
  else .FAN

/-- The `WindSpeed` enum. -/
inductive WindSpeed
  | AUTO
  | LEVEL_1
  | LEVEL_2
  | LEVEL_3
  | LEVEL_FULL
deriving DecidableEq

/-- Numeric value of a `WindSpeed` member. -/
def WindSpeed.value : WindSpeed → Nat
  | .AUTO => 0
  | .LEVEL_1 => 1
  | .LEVEL_2 => 2
  | .LEVEL_3 => 3
  | .LEVEL_FULL => 5

/-- The `WindSpeed.from_segment`: the `speed_map` lookup (keys are the two-digit
hex renderings of the byte), default `AUTO`. -/
def WindSpeed.from_segment (segment : Nat) : WindSpeed :=
  if segment = 0x00 then .AUTO
  else if segment = 0x01 then .LEVEL_1
  else if segment = 0x02 then .LEVEL_2
  else if segment = 0x03 then .LEVEL_3
  else if segment = 0x05 then .LEVEL_FULL
  else .AUTO

/-- The `VerticalWindDirection` enum. -/
inductive VerticalWindDirection
  | AUTO
  | V1
  | V2
  | V3
  | V4
  | V5
  | SWING
deriving DecidableEq

/-- Numeric value of a `VerticalWindDirection` member. -/
def VerticalWindDirection.value : VerticalWindDirection → Nat
  | .AUTO => 0
  | .V1 => 1
  | .V2 => 2
  | .V3 => 3
  | .V4 => 4
  | .V5 => 5
  | .SWING => 7

/-- The `VerticalWindDirection.from_segment`: the `direction_map` lookup,
default `AUTO`. -/
def VerticalWindDirection.from_segment (segment : Nat) : VerticalWindDirection :=
  if segment = 0x00 then .AUTO
  else if segment = 0x01 then .V1
  else if segment = 0x02 then .V2
  else if segment = 0x03 then .V3
  else if segment = 0x04 then .V4
  else if segment = 0x05 then .V5
  else if segment = 0x07 then .SWING
  else .AUTO

/-- The `HorizontalWindDirection` enum. -/
inductive HorizontalWindDirection
  | AUTO
  | L
  | LS
  | C
  | RS
  | R
  | LC
  | CR
  | LR
  | LCR
  | LCR_S
deriving DecidableEq

/-- Numeric value of a `HorizontalWindDirection` member. -/
def HorizontalWindDirection.value : HorizontalWindDirection → Nat
  | .AUTO => 0
  | .L => 1
  | .LS => 2
  | .C => 3
  | .RS => 4
  | .R => 5
  | .LC => 6
  | .CR => 7
  | .LR => 8
  | .LCR => 9
  | .LCR_S => 12

/-- The `HorizontalWindDirection.from_segment`: masks the value with `0x7F`,
then looks the result up as an enum value, defaulting to `AUTO` when no
member carries it (the `except ValueError` branch). -/
def HorizontalWindDirection.from_segment (segment : Nat) : HorizontalWindDirection :=
  let value := segment &&& 0x7F
  if value = 0 then .AUTO
  else if value = 1 then .L
  else if value = 2 then .LS
  else if value = 3 then .C
  else if value = 4 then .RS
  else if value = 5 then .R
  else if value = 6 then .LC
  else if value = 7 then .CR
  else if value = 8 then .LR
  else if value = 9 then .LCR
  else if value = 12 then .LCR_S
  else .AUTO

/-- The `MitsubishiTemperature.from_segment`: `(segment - 0x80) * 0.5` degrees,
held in 0.5 degree units, so the value is `segment - 0x80` as an `Int`. -/
def MitsubishiTemperature.from_segment (segment : Nat) : Int :=
  (segment : Int) - 0x80

/-- The `MitsubishiTemperature.segment5_value` on a temperature `t` in 0.5
degree units: temperatures below 16.0 (`t < 32`) return `31 - 16`, above
31.0 (`t > 62`) return `31 - 31`; otherwise `0x10` is added when the
fractional part is at least one half (`t` odd) to `31 - int(self)`
(`31 - t / 2`, the operand being positive so truncation is floor). -/
def MitsubishiTemperature.segment5_value (t : Int) : Nat :=
  if t < 32 then 31 - 16
  else if 62 < t then 31 - 31
  else (if t % 2 = 1 then 0x10 else 0x00) + (31 - t / 2).toNat

/-- The `MitsubishiTemperature.segment14_value`: `0x80 + int(self // 0.5)`,
which on a 0.5 degree unit value `t` is `0x80 + t` (`toNat` is safe on
every temperature the claims range over, all of which lie above zero). -/
def MitsubishiTemperature.segment14_value (t : Int) : Nat :=
  (0x80 + t).toNat

/-- The `calc_fcc`: `0x100 - (sum(payload[0:20]) % 0x100)`.  Note the source
sums only the first 20 bytes and takes no final reduction mod 256. -/
def calc_fcc (payload : List Nat) : Nat :=
  0x100 - ((payload.take 20).sum % 0x100)

/-- The `GeneralStates` dataclass with the source's default field values
(default temperature 22.0 degrees = 44 half-degree units).  The
`undocumented_flags` diagnostics dictionary is omitted: it is a research
side-channel never read by any code path a claim refers to. -/
structure GeneralStates where
  power_on_off : PowerOnOff := .OFF
  drive_mode : DriveMode := .AUTO
  temperature : Int := 44
  wind_speed : WindSpeed := .AUTO
  vertical_wind_direction_right : VerticalWindDirection := .AUTO
  vertical_wind_direction_left : VerticalWindDirection := .AUTO
  horizontal_wind_direction : HorizontalWindDirection := .AUTO
  dehum_setting : Nat := 0
  is_power_saving : Bool := false
  wind_and_wind_break_direct : Nat := 0
  i_see_sensor : Bool := false
  mode_raw_value : Nat := 0
  wide_vane_adjustment : Bool := false
  temp_mode : Bool := false
deriving DecidableEq

/-- The `GeneralStates.is_general_states_payload`: length at least 6, byte 1 in
`{0x62, 0x7b}`, byte 5 equal to `0x02`. -/
def GeneralStates.is_general_states_payload (payload : List Nat) : Bool :=
  if payload.length < 6 then false
  else (payload.getD 1 0 == 0x62 || payload.getD 1 0 == 0x7b) && payload.getD 5 0 == 0x02

/-- The `GeneralStates.parse_mode_with_i_see`: the i-See flag is
`mode_byte > 0x08`; when it is set, `0x08` is subtracted before the
`DriveMode.from_segment` lookup; the raw byte is returned unchanged as the
third component. -/
def GeneralStates.parse_mode_with_i_see (mode_byte : Nat) : DriveMode × Bool × Nat :=
  let i_see_active : Bool := decide (0x08 < mode_byte)
  let actual_mode_value := if i_see_active then mode_byte - 0x08 else mode_byte
  (DriveMode.from_segment actual_mode_value, i_see_active, mode_byte)

/-- The `GeneralStates.deserialize`.  Raising `ValueError("Data too short")` is
modelled as `none`.  Hex-string slices of `data.hex()` are translated to the
byte they denote: `payload[22:24]` is byte 11, `payload[24:26]` byte 12,
`payload[40:42]` byte 20.  Since `len(data) >= 21`, the hex string has at
least 42 characters, so the `len(payload) > 33` and `len(payload) > 21`
branch guards of the source are always true and the guarded fallbacks
(`len(payload) > 31` etc.) always take their main branch. -/
def GeneralStates.deserialize (data : List Nat) : Option GeneralStates :=
  if data.length < 21 then none
  else
    let power_on_off := PowerOnOff.from_segment (data.getD 8 0)
    let temp_direct_raw := data.getD 16 0
    let temp_mode : Bool := temp_direct_raw != 0x00
    let temperature :=
      if temp_direct_raw ≠ 0x00 then MitsubishiTemperature.from_segment temp_direct_raw
      else MitsubishiTemperature.from_segment (data.getD 10 0)
    let md := GeneralStates.parse_mode_with_i_see (data.getD 9 0)
    let wind_speed := WindSpeed.from_segment (data.getD 11 0)
    let right_vertical_wind_direction := VerticalWindDirection.from_segment (data.getD 12 0)
    let left_vertical_wind_direction := VerticalWindDirection.from_segment (data.getD 20 0)
    let wide_vane_data := data.getD 15 0
    let horizontal_wind_direction := HorizontalWindDirection.from_segment (wide_vane_data &&& 0x0F)
    let wide_vane_adjustment : Bool := (wide_vane_data &&& 0xF0) == 0x80
    let dehum_setting := data.getD 17 0
    let is_power_saving : Bool := decide (0 < data.getD 18 0)
    let wind_and_wind_break_direct := data.getD 19 0
    some {
      power_on_off := power_on_off
      temperature := temperature
      drive_mode := md.1
      wind_speed := wind_speed
      vertical_wind_direction_right := right_vertical_wind_direction
      vertical_wind_direction_left := left_vertical_wind_direction
      horizontal_wind_direction := horizontal_wind_direction
      dehum_setting := dehum_setting
      is_power_saving := is_power_saving
      wind_and_wind_break_direct := wind_and_wind_break_direct
      i_see_sensor := md.2.1
      mode_raw_value := md.2.2
      wide_vane_adjustment := wide_vane_adjustment
      temp_mode := temp_mode
    }

/-- The `SensorStates` dataclass. -/
structure SensorStates where
  outside_temperature : Int
  room_temperature : Int
  thermal_sensor : Bool
  wind_speed_pr557 : Nat
deriving DecidableEq

/-- The `SensorStates.is_sensor_states_payload`: byte 5 equal to `0x03`. -/
def SensorStates.is_sensor_states_payload (payload : List Nat) : Bool :=
  if payload.length < 6 then false
  else (payload.getD 1 0 == 0x62 || payload.getD 1 0 == 0x7b) && payload.getD 5 0 == 0x03

/-- The `SensorStates.deserialize`: `ValueError("Payload too short")` is `none`. -/
def SensorStates.deserialize (payload : List Nat) : Option SensorStates :=
  if payload.length < 21 then none
  else
    some {
      outside_temperature := MitsubishiTemperature.from_segment (payload.getD 10 0)
      room_temperature := MitsubishiTemperature.from_segment (payload.getD 12 0)
      thermal_sensor := (payload.getD 19 0) &&& 0x01 != 0
      wind_speed_pr557 := if (payload.getD 20 0) &&& 0x01 == 1 then 1 else 0
    }

/-- The `EnergyStates` dataclass.  The derived `estimated_power_watts` field is
omitted: it is the output of the floating-point `estimate_power_consumption`
heuristic, which no claim refers to. -/
structure EnergyStates where
  compressor_frequency : Nat
  operating : Bool
deriving DecidableEq

/-- The `EnergyStates.is_energy_states_payload`: byte 5 equal to `0x06`. -/
def EnergyStates.is_energy_states_payload (payload : List Nat) : Bool :=
  if payload.length < 6 then false
  else (payload.getD 1 0 == 0x62 || payload.getD 1 0 == 0x7b) && payload.getD 5 0 == 0x06

/-- The `EnergyStates.deserialize`: needs at least 12 bytes; hex positions 18-19
are byte 9 (compressor frequency) and 20-21 byte 10 (operating flag).  The
optional `general_states` argument only feeds the omitted power estimate. -/
def EnergyStates.deserialize (payload_b : List Nat) : Option EnergyStates :=
  if payload_b.length < 12 then none
  else
    some {
      compressor_frequency := payload_b.getD 9 0
      operating := decide (0 < payload_b.getD 10 0)
    }

/-- The `ErrorStates` dataclass.  The source renders `error_code` as the
four-hex-character string of the two code bytes; the pair of bytes is kept
here. -/
structure ErrorStates where
  is_abnormal_state : Bool
  error_code : Nat × Nat
deriving DecidableEq

/-- The `ErrorStates.is_error_states_payload`: byte 5 equal to `0x04`. -/
def ErrorStates.is_error_states_payload (payload : List Nat) : Bool :=
  if payload.length < 6 then false
  else (payload.getD 1 0 == 0x62 || payload.getD 1 0 == 0x7b) && payload.getD 5 0 == 0x04

/-- The `ErrorStates.deserialize`: the source checks `len(payload.hex()) < 22`,
i.e. fewer than 11 bytes; `code_head` is hex positions 18-19 (byte 9) and
`code_tail` positions 20-21 (byte 10). -/
def ErrorStates.deserialize (payload_b : List Nat) : Option ErrorStates :=
  if payload_b.length < 11 then none
  else
    let code_head := payload_b.getD 9 0
    let code_tail := payload_b.getD 10 0
    some {
      is_abnormal_state := !(code_head == 0x80 && code_tail == 0x00)
      error_code := (code_head, code_tail)
    }

/-- The `ParsedDeviceState`: the aggregate of the four optional state groups.
The identity strings (`mac`, `serial`, `rssi`, `app_version`) are omitted:
they default to `""` and `parse_code_values` never writes them. -/
structure ParsedDeviceState where
  general : Option GeneralStates := none
  sensors : Option SensorStates := none
  errors : Option ErrorStates := none
  energy : Option EnergyStates := none
deriving DecidableEq

/-- One iteration of the `parse_code_values` loop.  Frames whose hex
rendering is empty or shorter than 20 characters (i.e. fewer than 10 bytes)
are skipped; the all-hex-characters test always passes for the hex
rendering of a byte string.  A `ValueError` escaping a deserializer
propagates out of the loop, modelled by the `Option` monad. -/
def parse_code_value_step (parsed : ParsedDeviceState) (value : List Nat) :
    Option ParsedDeviceState :=
  if value.length < 10 then pure parsed
  else if GeneralStates.is_general_states_payload value then
    (GeneralStates.deserialize value).map (fun g => { parsed with general := some g })
  else if SensorStates.is_sensor_states_payload value then
    (SensorStates.deserialize value).map (fun s => { parsed with sensors := some s })
  else if ErrorStates.is_error_states_payload value then
    (ErrorStates.deserialize value).map (fun e => { parsed with errors := some e })
  else if EnergyStates.is_energy_states_payload value then
    (EnergyStates.deserialize value).map (fun e => { parsed with energy := some e })
  else pure parsed

/-- The `parse_code_values`: folds the frames into one `ParsedDeviceState`. -/
def parse_code_values (code_values : List (List Nat)) : Option ParsedDeviceState :=
  code_values.foldlM parse_code_value_step {}

/-- The `controls` dictionary of `generate_general_command`, as a record of
the keys the function reads.  A missing key reads as false, except
`outside_control`, read with `controls.get('outside_control', True)`. -/
structure Controls where
  power_on_off : Bool := false
  drive_mode : Bool := false
  temperature : Bool := false
  wind_speed : Bool := false
  up_down_wind_direct : Bool := false
  left_right_wind_direct : Bool := false
  outside_control : Bool := true
deriving DecidableEq

/-- Hex digit character for a value below 16 (lowercase, as Python's
`format(.., "02x")`). -/
def hexDigit (n : Nat) : Char :=
  if n < 10 then Char.ofNat (48 + n) else Char.ofNat (87 + n)

/-- Python `format(n, "02x")` for `n < 4096`: minimum width two, lowercase,
three digits when the value does not fit a byte (as happens when
`calc_fcc` returns `0x100`). -/
def format02x (n : Nat) : List Char :=
  if n < 16 then ['0', hexDigit n]
  else if n < 256 then [hexDigit (n / 16), hexDigit (n % 16)]
  else [hexDigit (n / 256), hexDigit (n / 16 % 16), hexDigit (n % 16)]

/-- Two-hex-digits-per-byte rendering of a byte string (`bytes.hex()`). -/
def bytesHex (bs : List Nat) : List Char :=
  bs.foldr (fun b acc => format02x b ++ acc) []

/-- The control-flag byte (`segment1_value`) of `generate_general_command`. -/
def segment1_value (controls : Controls) : Nat :=
  (if controls.power_on_off then 0x01 else 0) |||
  (if controls.drive_mode then 0x02 else 0) |||
  (if controls.temperature then 0x04 else 0) |||
  (if controls.wind_speed then 0x08 else 0) |||
  (if controls.up_down_wind_direct then 0x10 else 0)

/-- The second flag byte (`segment2_value`) of `generate_general_command`. -/
def segment2_value (controls : Controls) : Nat :=
  (if controls.left_right_wind_direct then 0x01 else 0) |||
  (if controls.outside_control then 0x02 else 0)

/-- The 20 payload bytes built by `generate_general_command`: the fixed
header `41 01 30 10`, then segments 0 to 15.  Segments 8 to 12 are absent
from the dictionary and default to `00`, segment 15 is the fixed
`checkInside` byte `0x41`.  The source assembles the hex string and
re-parses it with `bytes.fromhex` to feed `calc_fcc`; the byte list is
identical whenever every segment fits one byte, which holds throughout the
claims settled here. -/
def generalCommandPayload (general_states : GeneralStates) (controls : Controls) : List Nat :=
  [0x41, 0x01, 0x30, 0x10,
   0x01,
   segment1_value controls,
   segment2_value controls,
   general_states.power_on_off.value,
   general_states.drive_mode.value,
   MitsubishiTemperature.segment5_value general_states.temperature,
   general_states.wind_speed.value,
   general_states.vertical_wind_direction_right.value,
   0x00, 0x00, 0x00, 0x00, 0x00,
   general_states.horizontal_wind_direction.value,
   MitsubishiTemperature.segment14_value general_states.temperature,
   0x41]

/-- The `generate_general_command`: `"fc" + payload_hex + format(calc_fcc(payload), "02x")`. -/
def generate_general_command (general_states : GeneralStates) (controls : Controls) : String :=
  let payload := generalCommandPayload general_states controls
  String.mk (('f' :: 'c' :: bytesHex payload) ++ format02x (calc_fcc payload))

/-- The General-group response frame `fc620130100200000108080000000083ae46000000d3`
used by the spec's concrete decoding scenario. -/
def frameC4 : List Nat :=
  [0xfc, 0x62, 0x01, 0x30, 0x10, 0x02, 0x00, 0x00, 0x01, 0x08, 0x08,
   0x00, 0x00, 0x00, 0x00, 0x83, 0xae, 0x46, 0x00, 0x00, 0x00, 0xd3]

/-- A General-tagged frame truncated to 10 bytes: long enough to pass the
aggregator's 20-hex-character filter, too short for the decoder. -/
def truncatedGeneralFrame : List Nat :=
  [0xfc, 0x62, 0x01, 0x30, 0x10, 0x02, 0x00, 0x00, 0x00, 0x00]

/-- C1, counterexample: on 20 zero bytes followed by one extra byte `1`,
`calc_fcc` returns `0x100`, which is not a single byte, and because the sum
runs over the first 20 bytes only, the claimed complement identity over the
whole sequence fails (the residue is 1, not 0). -/
theorem calc_fcc_c1_counterexample :
    calc_fcc (List.replicate 20 0 ++ [1]) = 256 ∧
    ((List.replicate 20 0 ++ [1]).sum + calc_fcc (List.replicate 20 0 ++ [1])) % 256 = 1 := by
  decide

/-- C1, amended: `calc_fcc p` equals `0x100 - (sum of the first 20 bytes of
p mod 0x100)`, a value between 1 and 256 (256, not a byte, exactly when that
sum is divisible by 256), and the complement identity holds over the first
20 bytes: `(sum(p[0:20]) + calc_fcc(p)) % 256 == 0`. -/
theorem calc_fcc_c1_amended (p : List Nat) :
    1 ≤ calc_fcc p ∧ calc_fcc p ≤ 256 ∧
    ((p.take 20).sum + calc_fcc p) % 256 = 0 ∧
    (calc_fcc p ≤ 255 ↔ (p.take 20).sum % 256 ≠ 0) := by
  unfold calc_fcc
  have h : (p.take 20).sum % 256 < 256 := Nat.mod_lt _ (by norm_num)
  refine ⟨by omega, by omega, by omega, by omega⟩

/-- C3: `generate_general_command` on a default-constructed state with an
empty selection dictionary returns the hex string with mode byte `00`
(`DriveMode.AUTO.value = 0`) and checksum `85`, not the regression-pinned
string with mode byte `08` and checksum `7d` that the spec and the
repository's own test `test_generate_general_command` expect. -/
theorem generate_general_command_c3_value :
    generate_general_command {} {} = "fc410130100100020000090000000000000000ac4185" ∧
    generate_general_command {} {} ≠ "fc410130100100020008090000000000000000ac417d" := by
  constructor
  · rfl
  · decide

/-- C4, counterexample: decoding the scenario frame yields temperature
byte `0xae`, i.e. `(0xae - 0x80) * 0.5 = 23.0` degrees (46 half-degree
units), not the claimed 22.0 degrees (44 half-degree units). -/
theorem general_frame_c4_counterexample :
    (GeneralStates.deserialize frameC4).map GeneralStates.temperature = some 46 ∧
    (GeneralStates.deserialize frameC4).map GeneralStates.temperature ≠ some 44 := by
  decide

/-- C4, amended: decoding `fc620130100200000108080000000083ae46000000d3`
yields power ON, drive mode Auto, temperature 23.0 degrees Celsius (46
half-degree units), and the i-See flag unset. -/
theorem general_frame_c4_amended :
    (GeneralStates.deserialize frameC4).map
        (fun s => (s.power_on_off, s.drive_mode, s.temperature, s.i_see_sensor)) =
      some (PowerOnOff.ON, DriveMode.AUTO, 46, false) := by
  decide

/-- C5, counterexample: the raw mode byte `0x0c` does not decode to
Dehumidify in General-frame mode parsing: the i-See flag (`> 0x08`) fires,
`0x0c - 0x08 = 0x04` is looked up, `0x04` is absent from the mode table,
and the default `FAN` is returned. -/
theorem parse_mode_c5_counterexample :
    GeneralStates.parse_mode_with_i_see 0x0c = (DriveMode.FAN, true, 0x0c) ∧
    DriveMode.FAN ≠ DriveMode.DEHUM := by
  decide

/-- C5, amended: the i-See flag is `mode_byte > 0x08` (not bit `0x08`:
`0x08` itself leaves it unset); when the flag is set `0x08` is subtracted
before the mode lookup and the raw byte is preserved; `0x00` yields
Dehumidify, `0x03` and `0x0b` both yield Cooler, `0x08` yields Auto with
the flag unset, but `0x0c` yields Fan with the flag set. -/
theorem parse_mode_c5_amended :
    (∀ m : Nat, (GeneralStates.parse_mode_with_i_see m).2.1 = decide (0x08 < m) ∧
                (GeneralStates.parse_mode_with_i_see m).2.2 = m) ∧
    GeneralStates.parse_mode_with_i_see 0x00 = (DriveMode.DEHUM, false, 0x00) ∧
    GeneralStates.parse_mode_with_i_see 0x03 = (DriveMode.COOLER, false, 0x03) ∧
    GeneralStates.parse_mode_with_i_see 0x0b = (DriveMode.COOLER, true, 0x0b) ∧
    GeneralStates.parse_mode_with_i_see 0x08 = (DriveMode.AUTO, false, 0x08) ∧
    GeneralStates.parse_mode_with_i_see 0x0c = (DriveMode.FAN, true, 0x0c) ∧
    (∀ m : Nat, 0x08 < m →
      (GeneralStates.parse_mode_with_i_see m).1 = DriveMode.from_segment (m - 0x08)) := by
  refine ⟨fun m => ⟨rfl, rfl⟩, by decide, by decide, by decide, by decide, by decide, ?_⟩
  intro m hm
  simp only [GeneralStates.parse_mode_with_i_see, decide_eq_true hm, if_pos]

/-- C5, witness for the quantified subtraction clause of the amended
theorem, at the concrete raw byte `0x0b`. -/
theorem parse_mode_c5_amended_witness :
    (GeneralStates.parse_mode_with_i_see 0x0b).1 = DriveMode.from_segment (0x0b - 0x08) :=
  parse_mode_c5_amended.2.2.2.2.2.2 0x0b (by decide)

/-- C10: the four frame-group predicates each reject payloads shorter than
6 bytes, and are pairwise exclusive (they test the distinct subtype bytes
`0x02`, `0x03`, `0x06`, `0x04` at position 5), so at most one holds for any
byte sequence. -/
theorem payload_predicates_c10 (p : List Nat) :
    (p.length < 6 →
      GeneralStates.is_general_states_payload p = false ∧
      SensorStates.is_sensor_states_payload p = false ∧
      EnergyStates.is_energy_states_payload p = false ∧
      ErrorStates.is_error_states_payload p = false) ∧
    (if GeneralStates.is_general_states_payload p then 1 else 0) +
      (if SensorStates.is_sensor_states_payload p then 1 else 0) +
      (if EnergyStates.is_energy_states_payload p then 1 else 0) +
      (if ErrorStates.is_error_states_payload p then 1 else 0) ≤ 1 := by
  constructor
  · intro h
    simp [GeneralStates.is_general_states_payload, SensorStates.is_sensor_states_payload,
      EnergyStates.is_energy_states_payload, ErrorStates.is_error_states_payload, h]
  · split_ifs with h1 h2 h3 h4 <;>
      simp_all [GeneralStates.is_general_states_payload, SensorStates.is_sensor_states_payload,
        EnergyStates.is_energy_states_payload, ErrorStates.is_error_states_payload]

/-- C10, witness: the implication hypothesis discharged at the empty
payload, together with the exclusivity count there. -/
theorem payload_predicates_c10_witness :
    (GeneralStates.is_general_states_payload [] = false ∧
      SensorStates.is_sensor_states_payload [] = false ∧
      EnergyStates.is_energy_states_payload [] = false ∧
      ErrorStates.is_error_states_payload [] = false) ∧
    (if GeneralStates.is_general_states_payload [] then 1 else 0) +
      (if SensorStates.is_sensor_states_payload [] then 1 else 0) +
      (if EnergyStates.is_energy_states_payload [] then 1 else 0) +
      (if ErrorStates.is_error_states_payload [] then 1 else 0) ≤ 1 :=
  ⟨(payload_predicates_c10 []).1 (by decide), (payload_predicates_c10 []).2⟩

/-- C2, counterexample: the General decoder accepts the scenario frame, and
still accepts it after byte 2 (not the trailing checksum byte) is flipped
from `0x01` to `0x00`: no ChecksumError is raised — the decoders never
validate the checksum. -/
theorem checksum_c2_counterexample :
    (GeneralStates.deserialize frameC4).isSome = true ∧
    frameC4.getD 2 0 ≠ 0x00 ∧
    (GeneralStates.deserialize (frameC4.set 2 0x00)).isSome = true := by
  decide

/-- C2, amended: the state decoders perform no checksum validation at all.
`GeneralStates.deserialize` succeeds on exactly the inputs of length at
least 21 and `ErrorStates.deserialize` on those of length at least 11,
regardless of the checksum byte; the only failure is the too-short
`ValueError`, so flipping a byte of a valid frame never raises. -/
theorem deserialize_c2_amended (d : List Nat) :
    ((GeneralStates.deserialize d).isSome = true ↔ 21 ≤ d.length) ∧
    ((ErrorStates.deserialize d).isSome = true ↔ 11 ≤ d.length) := by
  constructor
  · unfold GeneralStates.deserialize
    split <;> rename_i h <;> simp <;> omega
  · unfold ErrorStates.deserialize
    split <;> rename_i h <;> simp <;> omega

/-- C6, counterexample: a list holding one well-formed General frame and
one General-tagged frame truncated to 10 bytes does not yield a populated
device state: the truncated frame passes the 20-hex-character filter, is
dispatched to `GeneralStates.deserialize`, and the `ValueError` aborts the
whole aggregation (`none`). -/
theorem parse_code_values_c6_counterexample :
    parse_code_values [frameC4, truncatedGeneralFrame] = none := by
  decide

/-- C6, amended: the aggregator only skips frames shorter than 10 bytes or
frames no group predicate recognizes; for such a second frame, a list with
one well-formed General frame yields a device state with the general field
populated and no exception.  (A recognized frame of 10 or more bytes that
is still too short for its decoder instead aborts the fold, per the
counterexample.) -/
theorem parse_code_values_c6_amended (junk : List Nat)
    (h : junk.length < 10 ∨
      (GeneralStates.is_general_states_payload junk = false ∧
        SensorStates.is_sensor_states_payload junk = false ∧
        ErrorStates.is_error_states_payload junk = false ∧
        EnergyStates.is_energy_states_payload junk = false)) :
    parse_code_values [frameC4, junk] =
      some { general := GeneralStates.deserialize frameC4 } ∧
    (GeneralStates.deserialize frameC4).isSome = true := by
  have e1 : parse_code_value_step {} frameC4 =
      some { general := GeneralStates.deserialize frameC4 } := by decide
  have e2 : parse_code_value_step { general := GeneralStates.deserialize frameC4 } junk =
      some { general := GeneralStates.deserialize frameC4 } := by
    rcases h with h | ⟨h1, h2, h3, h4⟩
    · simp [parse_code_value_step, h]
    · by_cases hl : junk.length < 10
      · simp [parse_code_value_step, hl]
      · simp [parse_code_value_step, hl, h1, h2, h3, h4]
  refine ⟨?_, by decide⟩
  simp [parse_code_values, List.foldlM_cons, List.foldlM_nil, e1, e2]

/-- C6, witness: the amended theorem applied to the empty garbage frame. -/
theorem parse_code_values_c6_amended_witness :
    parse_code_values [frameC4, []] =
      some { general := GeneralStates.deserialize frameC4 } ∧
    (GeneralStates.deserialize frameC4).isSome = true :=
  parse_code_values_c6_amended [] (Or.inl (by decide))

/-- The `segment1_value` is an OR of bits below `0x20`. -/
lemma segment1_value_le (c : Controls) : segment1_value c ≤ 0x1f := by
  unfold segment1_value
  split_ifs <;> decide

/-- The `segment2_value` is an OR of bits below `0x04`. -/
lemma segment2_value_le (c : Controls) : segment2_value c ≤ 3 := by
  unfold segment2_value
  split_ifs <;> decide

/-- Every `PowerOnOff` wire value is at most 1. -/
lemma power_value_le (x : PowerOnOff) : x.value ≤ 1 := by
  cases x <;> decide

/-- Every `DriveMode` value is at most `0x1b`. -/
lemma drive_mode_value_le (x : DriveMode) : x.value ≤ 27 := by
  cases x <;> decide

/-- Every `WindSpeed` value is at most 5. -/
lemma wind_speed_value_le (x : WindSpeed) : x.value ≤ 5 := by
  cases x <;> decide

/-- Every `VerticalWindDirection` value is at most 7. -/
lemma vertical_value_le (x : VerticalWindDirection) : x.value ≤ 7 := by
  cases x <;> decide

/-- Every `HorizontalWindDirection` value is at most 12. -/
lemma horizontal_value_le (x : HorizontalWindDirection) : x.value ≤ 12 := by
  cases x <;> decide

/-- The coarse temperature segment never exceeds `0x1f`. -/
lemma segment5_value_le (t : Int) : MitsubishiTemperature.segment5_value t ≤ 31 := by
  unfold MitsubishiTemperature.segment5_value
  split_ifs <;> omega

/-- For temperatures between 16.0 and 31.0 degrees, the fine temperature
segment lies between `0xa0` and `0xbe`. -/
lemma segment14_value_bounds (t : Int) (h1 : 32 ≤ t) (h2 : t ≤ 62) :
    160 ≤ MitsubishiTemperature.segment14_value t ∧
      MitsubishiTemperature.segment14_value t ≤ 190 := by
  unfold MitsubishiTemperature.segment14_value
  omega

/-- The `format02x` renders a byte as exactly two characters. -/
lemma format02x_length (n : Nat) (h : n < 256) : (format02x n).length = 2 := by
  unfold format02x
  split_ifs <;> rfl

/-- The `bytesHex` renders each byte as two characters. -/
lemma bytesHex_length (bs : List Nat) (h : ∀ x ∈ bs, x < 256) :
    (bytesHex bs).length = 2 * bs.length := by
  induction bs with
  | nil => rfl
  | cons a l ih =>
      have ha : a < 256 := h a (by simp)
      have hl : ∀ x ∈ l, x < 256 := fun x hx => h x (by simp [hx])
      have step : bytesHex (a :: l) = format02x a ++ bytesHex l := rfl
      rw [step, List.length_append, format02x_length a ha, ih hl, List.length_cons]
      omega

/-- Every byte of a generated General command payload fits one byte, for
temperatures between 16.0 and 31.0 degrees. -/
lemma generalCommandPayload_bytes_lt (gs : GeneralStates) (c : Controls)
    (h1 : 32 ≤ gs.temperature) (h2 : gs.temperature ≤ 62) :
    ∀ x ∈ generalCommandPayload gs c, x < 256 := by
  have b1 := segment1_value_le c
  have b2 := segment2_value_le c
  have b3 := power_value_le gs.power_on_off
  have b4 := drive_mode_value_le gs.drive_mode
  have b5 := segment5_value_le gs.temperature
  have b6 := wind_speed_value_le gs.wind_speed
  have b7 := vertical_value_le gs.vertical_wind_direction_right
  have b8 := horizontal_value_le gs.horizontal_wind_direction
  have b9 := segment14_value_bounds gs.temperature h1 h2
  intro x hx
  simp only [generalCommandPayload, List.mem_cons, List.not_mem_nil, or_false] at hx
  rcases hx with rfl | rfl | rfl | rfl | rfl | rfl | rfl | rfl | rfl | rfl | rfl | rfl
    | rfl | rfl | rfl | rfl | rfl | rfl | rfl | rfl <;> omega

/-- Unconditionally, every byte of a generated General command payload
other than segment 14 fits one byte: segment 14 is the only segment whose
hex rendering (and so `bytes.fromhex`) can fail in the source. -/
lemma generalCommandPayload_bytes_lt_except (gs : GeneralStates) (c : Controls) :
    ∀ x ∈ generalCommandPayload gs c,
      x < 256 ∨ x = MitsubishiTemperature.segment14_value gs.temperature := by
  have b1 := segment1_value_le c
  have b2 := segment2_value_le c
  have b3 := power_value_le gs.power_on_off
  have b4 := drive_mode_value_le gs.drive_mode
  have b5 := segment5_value_le gs.temperature
  have b6 := wind_speed_value_le gs.wind_speed
  have b7 := vertical_value_le gs.vertical_wind_direction_right
  have b8 := horizontal_value_le gs.horizontal_wind_direction
  intro x hx
  simp only [generalCommandPayload, List.mem_cons, List.not_mem_nil, or_false] at hx
  rcases hx with rfl | rfl | rfl | rfl | rfl | rfl | rfl | rfl | rfl | rfl | rfl | rfl
    | rfl | rfl | rfl | rfl | rfl | rfl | rfl | rfl <;>
    first
    | (right; rfl)
    | (left; omega)

/-- The payload sum of a generated General command lies between 356 and
503, so its residue mod 256 is never zero, for temperatures in range. -/
lemma generalCommandPayload_sum_bounds (gs : GeneralStates) (c : Controls)
    (h1 : 32 ≤ gs.temperature) (h2 : gs.temperature ≤ 62) :
    356 ≤ (generalCommandPayload gs c).sum ∧ (generalCommandPayload gs c).sum ≤ 503 := by
  have b1 := segment1_value_le c
  have b2 := segment2_value_le c
  have b3 := power_value_le gs.power_on_off
  have b4 := drive_mode_value_le gs.drive_mode
  have b5 := segment5_value_le gs.temperature
  have b6 := wind_speed_value_le gs.wind_speed
  have b7 := vertical_value_le gs.vertical_wind_direction_right
  have b8 := horizontal_value_le gs.horizontal_wind_direction
  have b9 := segment14_value_bounds gs.temperature h1 h2
  simp only [generalCommandPayload, List.sum_cons, List.sum_nil]
  omega

/-- C9: for every state whose temperature lies in 16.0..31.0 degrees (32 to
62 half-units) and any selection flags, the generated command is a
44-hex-character string: sync byte `fc`, the four header bytes
`41 01 30 10`, a 20-byte payload, and a final checksum byte equal to
`calc_fcc` of the payload — which is a single byte here because the payload
sum stays strictly between 256 and 512, so the frame satisfies the
checksum complement invariant. -/
theorem generate_general_command_c9 (gs : GeneralStates) (c : Controls)
    (h1 : 32 ≤ gs.temperature) (h2 : gs.temperature ≤ 62) :
    (generalCommandPayload gs c).length = 20 ∧
    (generalCommandPayload gs c).take 4 = [0x41, 0x01, 0x30, 0x10] ∧
    calc_fcc (generalCommandPayload gs c) ≤ 255 ∧
    ((generalCommandPayload gs c).sum + calc_fcc (generalCommandPayload gs c)) % 256 = 0 ∧
    generate_general_command gs c =
      String.mk ('f' :: 'c' :: '4' :: '1' :: '0' :: '1' :: '3' :: '0' :: '1' :: '0' ::
        (bytesHex ((generalCommandPayload gs c).drop 4) ++
          format02x (calc_fcc (generalCommandPayload gs c)))) ∧
    (generate_general_command gs c).length = 44 := by
  have hsum := generalCommandPayload_sum_bounds gs c h1 h2
  have hbytes := generalCommandPayload_bytes_lt gs c h1 h2
  have htake : (generalCommandPayload gs c).take 20 = generalCommandPayload gs c := rfl
  have hfcc : calc_fcc (generalCommandPayload gs c) ≤ 255 := by
    unfold calc_fcc
    rw [htake]
    omega
  refine ⟨rfl, rfl, hfcc, ?_, rfl, ?_⟩
  · unfold calc_fcc
    rw [htake]
    omega
  · show ((('f' :: 'c' :: bytesHex (generalCommandPayload gs c)) ++
      format02x (calc_fcc (generalCommandPayload gs c))).length) = 44
    rw [List.length_append, List.length_cons, List.length_cons,
      bytesHex_length _ hbytes, format02x_length _ (by omega)]
    rfl

/-- C9, witness: the invariant at the default state and default controls. -/
theorem generate_general_command_c9_witness :
    (generalCommandPayload {} {}).length = 20 ∧
    (generalCommandPayload {} {}).take 4 = [0x41, 0x01, 0x30, 0x10] ∧
    calc_fcc (generalCommandPayload {} {}) ≤ 255 ∧
    ((generalCommandPayload {} {}).sum + calc_fcc (generalCommandPayload {} {})) % 256 = 0 ∧
    generate_general_command {} {} =
      String.mk ('f' :: 'c' :: '4' :: '1' :: '0' :: '1' :: '3' :: '0' :: '1' :: '0' ::
        (bytesHex ((generalCommandPayload {} {}).drop 4) ++
          format02x (calc_fcc (generalCommandPayload {} {})))) ∧
    (generate_general_command {} {}).length = 44 :=
  generate_general_command_c9 {} {} (by decide) (by decide)

/-! ### Crypto envelope codec (`mitsubishi_api.py`)

The AES-128 block permutation under the fixed key is external library code
(pycryptodome); it enters the embedding as an abstract block function `E`
with inverse `D`, quantified in the round-trip theorem.  The padding, CBC
chaining, IV handling and base64 transport are embedded concretely. -/

/-- Bytewise XOR of two byte strings, as CBC chaining uses it. -/
def xorBytes (a b : List Nat) : List Nat :=
  List.zipWith (fun x y => x ^^^ y) a b

/-- ISO/IEC 7816-4 padding (`pad(payload_bytes, 16, 'iso7816')`): append
the marker byte `0x80`, then zero bytes up to the next 16-byte boundary (a
whole extra block when the length is already a multiple of 16). -/
def pad16 (data : List Nat) : List Nat :=
  data ++ 0x80 :: List.replicate (15 - data.length % 16) 0

/-- ISO/IEC 7816-4 unpadding (`unpad(decrypted, 16, 'iso7816')`): the
padding runs from the last `0x80` byte, which must exist, lie within the
last 16 bytes, and be followed by zeros only; a malformed padding raises
(`none`). -/
def unpad16 (data : List Nat) : Option (List Nat) :=
  let rev := data.reverse
  let zeros := rev.takeWhile (fun b => b == 0)
  match rev.dropWhile (fun b => b == 0) with
  | 0x80 :: tail => if zeros.length + 1 ≤ 16 then some tail.reverse else none
  | _ => none

/-- The CBC encryption loop of `AES.new(key, AES.MODE_CBC, iv).encrypt`:
each 16-byte block is XORed with the previous ciphertext block (initially
the IV) and passed through the block permutation `E`.  The fuel argument
makes the recursion structural; `pt.length` fuel always suffices. -/
def cbcEncryptGo (E : List Nat → List Nat) : Nat → List Nat → List Nat → List Nat
  | 0, _, _ => []
  | fuel + 1, prev, pt =>
    if pt = [] then []
    else
      let ct := E (xorBytes prev (pt.take 16))
      ct ++ cbcEncryptGo E fuel ct (pt.drop 16)

/-- CBC encryption of a whole (padded) plaintext. -/
def cbcEncrypt (E : List Nat → List Nat) (iv pt : List Nat) : List Nat :=
  cbcEncryptGo E pt.length iv pt

/-- The CBC decryption loop: each 16-byte ciphertext block goes through the
inverse permutation `D` and is XORed with the previous ciphertext block
(initially the IV). -/
def cbcDecryptGo (D : List Nat → List Nat) : Nat → List Nat → List Nat → List Nat
  | 0, _, _ => []
  | fuel + 1, prev, ct =>
    if ct = [] then []
    else
      xorBytes prev (D (ct.take 16)) ++ cbcDecryptGo D fuel (ct.take 16) (ct.drop 16)

/-- CBC decryption of a whole ciphertext. -/
def cbcDecrypt (D : List Nat → List Nat) (iv ct : List Nat) : List Nat :=
  cbcDecryptGo D ct.length iv ct

/-- The base64 alphabet character of a sextet (0..63). -/
def sextetChar (n : Nat) : Char :=
  if n < 26 then Char.ofNat (65 + n)
  else if n < 52 then Char.ofNat (97 + (n - 26))
  else if n < 62 then Char.ofNat (48 + (n - 52))
  else if n = 62 then '+'
  else '/'

/-- Partial inverse of the base64 alphabet. -/
def charSextet (c : Char) : Option Nat :=
  if 'A' ≤ c ∧ c ≤ 'Z' then some (c.toNat - 65)
  else if 'a' ≤ c ∧ c ≤ 'z' then some (c.toNat - 97 + 26)
  else if '0' ≤ c ∧ c ≤ '9' then some (c.toNat - 48 + 52)
  else if c = '+' then some 62
  else if c = '/' then some 63
  else none

/-- The `base64.b64encode`: three bytes become four characters, a final one- or
two-byte group is padded with `=`. -/
def b64Encode : List Nat → List Char
  | [] => []
  | [a] =>
    let n := a * 0x10000
    [sextetChar (n / 0x40000), sextetChar (n / 0x1000 % 64), '=', '=']
  | [a, b] =>
    let n := a * 0x10000 + b * 0x100
    [sextetChar (n / 0x40000), sextetChar (n / 0x1000 % 64), sextetChar (n / 64 % 64), '=']
  | a :: b :: c :: rest =>
    let n := a * 0x10000 + b * 0x100 + c
    sextetChar (n / 0x40000) :: sextetChar (n / 0x1000 % 64) ::
      sextetChar (n / 64 % 64) :: sextetChar (n % 64) :: b64Encode rest

/-- The `base64.b64decode`: four characters become at most three bytes,
honouring `=` padding; invalid input is `none`. -/
def b64Decode : List Char → Option (List Nat)
  | [] => some []
  | c1 :: c2 :: c3 :: c4 :: rest =>
    (charSextet c1).bind fun s1 =>
    (charSextet c2).bind fun s2 =>
    if c3 = '=' then
      if c4 = '=' ∧ rest = [] then some [s1 * 4 + s2 / 16] else none
    else
      (charSextet c3).bind fun s3 =>
      if c4 = '=' then
        if rest = [] then some [s1 * 4 + s2 / 16, s2 % 16 * 16 + s3 / 4] else none
      else
        (charSextet c4).bind fun s4 =>
        (b64Decode rest).map fun tl =>
          (s1 * 4 + s2 / 16) :: (s2 % 16 * 16 + s3 / 4) :: (s3 % 4 * 64 + s4) :: tl
  | _ => none

/-- The `MitsubishiAPI.encrypt_payload` with an injected IV, at the byte level
(`payload` is the UTF-8 encoding of the payload string): ISO 7816-4
padding, CBC encryption, and base64 of `iv ++ ciphertext`. -/
def encrypt_payload (E : List Nat → List Nat) (payload iv : List Nat) : List Char :=
  b64Encode (iv ++ cbcEncrypt E iv (pad16 payload))

/-- The `MitsubishiAPI.decrypt_payload` at the byte level: base64 decode, split
the first 16 bytes as IV, CBC decrypt the rest, unpad (a padding
`ValueError` is `none`; the final UTF-8 decode is the identity at the byte
level and reproduces the original UTF-8 bytes). -/
def decrypt_payload (D : List Nat → List Nat) (payload_b64 : List Char) : Option (List Nat) :=
  (b64Decode payload_b64).bind fun encrypted =>
    unpad16 (cbcDecrypt D (encrypted.take 16) (encrypted.drop 16))

/-- Decoding inverts the base64 alphabet on sextets. -/
lemma charSextet_sextetChar : ∀ n < 64, charSextet (sextetChar n) = some n := by decide

/-- No alphabet character is the padding character. -/
lemma sextetChar_ne_pad : ∀ n < 64, sextetChar n ≠ '=' := by decide

/-- Base64 decoding inverts encoding on byte strings. -/
lemma b64_roundtrip (bs : List Nat) (h : ∀ x ∈ bs, x < 256) :
    b64Decode (b64Encode bs) = some bs := by
  induction bs using b64Encode.induct with
  | case1 => rfl
  | case2 a =>
    have ha : a < 256 := h a (by simp)
    simp only [b64Encode]
    rw [b64Decode]
    rw [charSextet_sextetChar _ (by omega), charSextet_sextetChar _ (by omega)]
    simp
    omega
  | case3 a b =>
    have ha : a < 256 := h a (by simp)
    have hb : b < 256 := h b (by simp)
    have f1 := charSextet_sextetChar ((a * 65536 + b * 256) / 262144) (by omega)
    have f2 := charSextet_sextetChar ((a * 65536 + b * 256) / 4096 % 64) (by omega)
    have f3 := charSextet_sextetChar ((a * 65536 + b * 256) / 64 % 64) (by omega)
    have e3 : sextetChar ((a * 65536 + b * 256) / 64 % 64) ≠ '=' :=
      sextetChar_ne_pad _ (by omega)
    simp only [b64Encode, b64Decode, f1, f2, f3, if_neg e3]
    simp
    omega
  | case4 a b c rest ih =>
    have ha : a < 256 := h a (by simp)
    have hb : b < 256 := h b (by simp)
    have hc : c < 256 := h c (by simp)
    have hrest : ∀ x ∈ rest, x < 256 := fun x hx => h x (by simp [hx])
    have f1 := charSextet_sextetChar ((a * 65536 + b * 256 + c) / 262144) (by omega)
    have f2 := charSextet_sextetChar ((a * 65536 + b * 256 + c) / 4096 % 64) (by omega)
    have f3 := charSextet_sextetChar ((a * 65536 + b * 256 + c) / 64 % 64) (by omega)
    have f4 := charSextet_sextetChar ((a * 65536 + b * 256 + c) % 64) (by omega)
    have e3 : sextetChar ((a * 65536 + b * 256 + c) / 64 % 64) ≠ '=' :=
      sextetChar_ne_pad _ (by omega)
    have e4 : sextetChar ((a * 65536 + b * 256 + c) % 64) ≠ '=' :=
      sextetChar_ne_pad _ (by omega)
    simp only [b64Encode, b64Decode, f1, f2, f3, f4, if_neg e3, if_neg e4, ih hrest]
    simp
    omega


/-- Length of a bytewise XOR. -/
lemma xorBytes_length (a b : List Nat) : (xorBytes a b).length = min a.length b.length := by
  simp [xorBytes]

/-- XORing twice with the same equal-length mask is the identity. -/
lemma xorBytes_cancel : ∀ a b : List Nat, a.length = b.length →
    xorBytes a (xorBytes a b) = b := by
  intro a
  induction a with
  | nil =>
    intro b hb
    cases b with
    | nil => rfl
    | cons y u => simp at hb
  | cons x t ih =>
    intro b hb
    cases b with
    | nil => simp at hb
    | cons y u =>
      have hb2 : t.length = u.length := by simp at hb; omega
      simp only [xorBytes, List.zipWith_cons_cons]
      exact congrArg₂ (· :: ·) (Nat.xor_cancel_left x y) (ih u hb2)

/-- Bytewise XOR preserves the byte range. -/
lemma xorBytes_valid : ∀ a b : List Nat, (∀ x ∈ a, x < 256) → (∀ x ∈ b, x < 256) →
    ∀ x ∈ xorBytes a b, x < 256 := by
  intro a
  induction a with
  | nil => intro b _ _ x hx; simp [xorBytes] at hx
  | cons z t ih =>
    intro b ha hb x hx
    cases b with
    | nil => simp [xorBytes] at hx
    | cons y u =>
      simp only [xorBytes, List.zipWith_cons_cons, List.mem_cons] at hx
      rcases hx with rfl | hx
      · have h1 : z < 256 := ha z (by simp)
        have h2 : y < 256 := hb y (by simp)
        exact @Nat.xor_lt_two_pow z y 8 h1 h2
      · exact ih u (fun w hw => ha w (by simp [hw])) (fun w hw => hb w (by simp [hw])) x hx

/-- Byte strings that split into 16-byte blocks. -/
inductive Blocked : List Nat → Prop
  | nil : Blocked []
  | cons (blk rest : List Nat) : blk.length = 16 → Blocked rest → Blocked (blk ++ rest)

/-- Every list whose length is a multiple of 16 splits into blocks. -/
lemma blocked_of_length : ∀ (n : Nat) (bs : List Nat), bs.length = n → n % 16 = 0 →
    Blocked bs := by
  intro n
  induction n using Nat.strong_induction_on with
  | _ n ih =>
    intro bs hlen hmod
    cases bs with
    | nil => exact .nil
    | cons a t =>
      have h16 : 16 ≤ (a :: t).length := by simp at hlen ⊢; omega
      have hsplit : (a :: t) = (a :: t).take 16 ++ (a :: t).drop 16 :=
        (List.take_append_drop 16 _).symm
      rw [hsplit]
      refine Blocked.cons _ _ ?_ (ih (n - 16) (by omega) _ ?_ (by omega))
      · rw [List.length_take]; omega
      · rw [List.length_drop]; omega

/-- CBC encryption preserves the length of a blocked plaintext. -/
lemma cbcEncryptGo_length (E : List Nat → List Nat)
    (hElen : ∀ b, b.length = 16 → (E b).length = 16) :
    ∀ bs, Blocked bs → ∀ prev n, bs.length ≤ n → prev.length = 16 →
      (cbcEncryptGo E n prev bs).length = bs.length := by
  intro bs hb
  induction hb with
  | nil =>
    intro prev n _ _
    cases n <;> simp [cbcEncryptGo]
  | cons blk rest hblk hrest ih =>
    intro prev n hn hprev
    have hlen : (blk ++ rest).length = 16 + rest.length := by simp [hblk]
    obtain ⟨m, rfl⟩ : ∃ m, n = m + 1 := ⟨n - 1, by omega⟩
    have hne : blk ++ rest ≠ [] := by
      intro he
      rw [he] at hlen
      simp at hlen
      omega
    have htake : (blk ++ rest).take 16 = blk := List.take_left' hblk
    have hdrop : (blk ++ rest).drop 16 = rest := List.drop_left' hblk
    simp only [cbcEncryptGo, if_neg hne, htake, hdrop]
    have hxlen : (xorBytes prev blk).length = 16 := by
      rw [xorBytes_length, hprev, hblk]
      omega
    have hct : (E (xorBytes prev blk)).length = 16 := hElen _ hxlen
    rw [List.length_append, hct, ih (E (xorBytes prev blk)) m (by omega) hct, hlen]

/-- CBC encryption outputs bytes when the block cipher does. -/
lemma cbcEncryptGo_valid (E : List Nat → List Nat)
    (hElen : ∀ b, b.length = 16 → (E b).length = 16)
    (hEval : ∀ b, b.length = 16 → (∀ x ∈ b, x < 256) → ∀ x ∈ E b, x < 256) :
    ∀ bs, Blocked bs → (∀ x ∈ bs, x < 256) → ∀ prev n, prev.length = 16 →
      (∀ x ∈ prev, x < 256) → ∀ x ∈ cbcEncryptGo E n prev bs, x < 256 := by
  intro bs hb
  induction hb with
  | nil =>
    intro _ prev n _ _ x hx
    cases n <;> simp [cbcEncryptGo] at hx
  | cons blk rest hblk hrest ih =>
    intro hv prev n hprev hprevv x hx
    have hlen : (blk ++ rest).length = 16 + rest.length := by simp [hblk]
    obtain ⟨m, rfl⟩ : ∃ m, n = m + 1 := by
      cases n with
      | zero => simp [cbcEncryptGo] at hx
      | succ m => exact ⟨m, rfl⟩
    have hne : blk ++ rest ≠ [] := by
      intro he
      rw [he] at hlen
      simp at hlen
      omega
    have htake : (blk ++ rest).take 16 = blk := List.take_left' hblk
    have hdrop : (blk ++ rest).drop 16 = rest := List.drop_left' hblk
    simp only [cbcEncryptGo, if_neg hne, htake, hdrop, List.mem_append] at hx
    have hblkv : ∀ w ∈ blk, w < 256 := fun w hw => hv w (List.mem_append_left _ hw)
    have hrestv : ∀ w ∈ rest, w < 256 := fun w hw => hv w (List.mem_append_right _ hw)
    have hxlen : (xorBytes prev blk).length = 16 := by
      rw [xorBytes_length, hprev, hblk]
      omega
    have hxv : ∀ w ∈ xorBytes prev blk, w < 256 := xorBytes_valid prev blk hprevv hblkv
    have hctv : ∀ w ∈ E (xorBytes prev blk), w < 256 := hEval _ hxlen hxv
    have hctlen : (E (xorBytes prev blk)).length = 16 := hElen _ hxlen
    rcases hx with hx | hx
    · exact hctv x hx
    · exact ih hrestv (E (xorBytes prev blk)) m hctlen hctv x hx

/-- CBC decryption with the inverse block permutation undoes CBC
encryption, for any IV and sufficient fuel. -/
lemma cbc_roundtrip (E D : List Nat → List Nat)
    (hED : ∀ b, b.length = 16 → D (E b) = b)
    (hElen : ∀ b, b.length = 16 → (E b).length = 16) :
    ∀ bs, Blocked bs → ∀ prev n m, bs.length ≤ n → bs.length ≤ m → prev.length = 16 →
      cbcDecryptGo D m prev (cbcEncryptGo E n prev bs) = bs := by
  intro bs hb
  induction hb with
  | nil =>
    intro prev n m _ _ _
    cases n <;> cases m <;> simp [cbcEncryptGo, cbcDecryptGo]
  | cons blk rest hblk hrest ih =>
    intro prev n m hn hm hprev
    have hlen : (blk ++ rest).length = 16 + rest.length := by simp [hblk]
    obtain ⟨n2, rfl⟩ : ∃ n2, n = n2 + 1 := ⟨n - 1, by omega⟩
    obtain ⟨m2, rfl⟩ : ∃ m2, m = m2 + 1 := ⟨m - 1, by omega⟩
    have hne : blk ++ rest ≠ [] := by
      intro he
      rw [he] at hlen
      simp at hlen
      omega
    have htake : (blk ++ rest).take 16 = blk := List.take_left' hblk
    have hdrop : (blk ++ rest).drop 16 = rest := List.drop_left' hblk
    simp only [cbcEncryptGo, if_neg hne, htake, hdrop]
    have hxlen : (xorBytes prev blk).length = 16 := by
      rw [xorBytes_length, hprev, hblk]
      omega
    have hctlen : (E (xorBytes prev blk)).length = 16 := hElen _ hxlen
    have hne2 : E (xorBytes prev blk) ++ cbcEncryptGo E n2 (E (xorBytes prev blk)) rest ≠ [] := by
      intro he
      have := congrArg List.length he
      rw [List.length_append, hctlen] at this
      simp at this
    have htake2 : (E (xorBytes prev blk) ++ cbcEncryptGo E n2 (E (xorBytes prev blk)) rest).take 16 =
        E (xorBytes prev blk) := List.take_left' hctlen
    have hdrop2 : (E (xorBytes prev blk) ++ cbcEncryptGo E n2 (E (xorBytes prev blk)) rest).drop 16 =
        cbcEncryptGo E n2 (E (xorBytes prev blk)) rest := List.drop_left' hctlen
    simp only [cbcDecryptGo, if_neg hne2, htake2, hdrop2]
    rw [hED _ hxlen, xorBytes_cancel prev blk (by omega)]
    rw [ih (E (xorBytes prev blk)) n2 m2 (by omega) (by omega) hctlen]

/-- Splitting a zero run followed by the marker byte. -/
lemma zeros_marker_split : ∀ (k : Nat) (X : List Nat),
    (List.replicate k 0 ++ 0x80 :: X).takeWhile (fun b => b == 0) = List.replicate k 0 ∧
    (List.replicate k 0 ++ 0x80 :: X).dropWhile (fun b => b == 0) = 0x80 :: X := by
  intro k
  induction k with
  | zero =>
    intro X
    constructor
    · simp
    · simp
  | succ k ih =>
    intro X
    simp only [List.replicate_succ, List.cons_append, List.takeWhile_cons, List.dropWhile_cons]
    constructor
    · simp [(ih X).1]
    · simp [(ih X).2]

/-- Unpadding inverts the ISO 7816-4 padding. -/
lemma unpad16_pad16 (p : List Nat) : unpad16 (pad16 p) = some p := by
  simp only [unpad16, pad16, List.reverse_append, List.reverse_cons, List.reverse_replicate,
    List.append_assoc, List.singleton_append]
  rw [(zeros_marker_split _ _).1, (zeros_marker_split _ _).2]
  have hk : (List.replicate (15 - p.length % 16) (0 : Nat)).length + 1 ≤ 16 := by
    rw [List.length_replicate]
    omega
  simp [hk]


/-- C7: for every plaintext byte string (the UTF-8 encoding of the
payload), every 16-byte IV, and the AES block permutation of the fixed key
(abstracted as any length- and byte-range-preserving permutation `E` with
inverse `D`), decrypting the result of encrypting returns the original:
`decrypt_payload(encrypt_payload(s, iv)) == s`. -/
theorem encrypt_decrypt_c7 (E D : List Nat → List Nat)
    (hED : ∀ b : List Nat, b.length = 16 → D (E b) = b)
    (hElen : ∀ b : List Nat, b.length = 16 → (E b).length = 16)
    (hEval : ∀ b : List Nat, b.length = 16 → (∀ x ∈ b, x < 256) → ∀ x ∈ E b, x < 256)
    (payload iv : List Nat)
    (hp : ∀ x ∈ payload, x < 256)
    (hiv : iv.length = 16) (hivv : ∀ x ∈ iv, x < 256) :
    decrypt_payload D (encrypt_payload E payload iv) = some payload := by
  have hpadlen : (pad16 payload).length % 16 = 0 := by
    simp only [pad16, List.length_append, List.length_cons, List.length_replicate]
    omega
  have hpadB : Blocked (pad16 payload) := blocked_of_length _ _ rfl hpadlen
  have hpadv : ∀ x ∈ pad16 payload, x < 256 := by
    intro x hx
    simp only [pad16, List.mem_append, List.mem_cons, List.mem_replicate] at hx
    rcases hx with hx | rfl | ⟨_, rfl⟩
    · exact hp x hx
    · omega
    · omega
  have hctlen : (cbcEncrypt E iv (pad16 payload)).length = (pad16 payload).length :=
    cbcEncryptGo_length E hElen _ hpadB iv _ le_rfl hiv
  have hctv : ∀ x ∈ cbcEncrypt E iv (pad16 payload), x < 256 :=
    cbcEncryptGo_valid E hElen hEval _ hpadB hpadv iv _ hiv hivv
  have hall : ∀ x ∈ iv ++ cbcEncrypt E iv (pad16 payload), x < 256 := by
    intro x hx
    rcases List.mem_append.mp hx with hx | hx
    · exact hivv x hx
    · exact hctv x hx
  simp only [encrypt_payload, decrypt_payload]
  rw [b64_roundtrip _ hall]
  simp only [Option.some_bind]
  rw [List.take_left' hiv, List.drop_left' hiv]
  show unpad16 (cbcDecryptGo D (cbcEncrypt E iv (pad16 payload)).length iv
    (cbcEncryptGo E (pad16 payload).length iv (pad16 payload))) = some payload
  rw [hctlen]
  rw [cbc_roundtrip E D hED hElen _ hpadB iv _ _ le_rfl le_rfl hiv]
  exact unpad16_pad16 payload

/-- C7, witness: the round trip at plaintext `"A"`, the zero IV, and the
identity block permutation. -/
theorem encrypt_decrypt_c7_witness :
    decrypt_payload (fun b => b) (encrypt_payload (fun b => b) [65] (List.replicate 16 0)) =
      some [65] :=
  encrypt_decrypt_c7 (fun b => b) (fun b => b)
    (fun _ _ => rfl) (fun _ h => h) (fun _ _ hv => hv)
    [65] (List.replicate 16 0)
    (by decide) (by decide) (by decide)

end Pymitsubishi
